import Mathlib

set_option maxRecDepth 4000

/-!
Shallow embedding of the booking / capacity-consistency workflow of the
ZenithFlowAPI repository (Django + DRF).  Entities mirror `app/core/models.py`;
operations mirror the REST layer's `perform_create` / `perform_destroy` /
serializer `validate` methods, composed in the order Django REST Framework
executes them (field validation, then serializer `validate`, then
`perform_*`).  Monetary `Decimal` amounts are modelled as integers in
hundredths (cents); timestamps are modelled as integers counting days.
Payload fields that no business rule reads (`description`, `start_time`,
`status`, technique tags, `enrolled_at`, `created_at`) are omitted.
-/

namespace ZenithFlow

instance {ε α : Type} [DecidableEq ε] [DecidableEq α] : DecidableEq (Except ε α)
  | .ok a, .ok b =>
    if h : a = b then .isTrue (by rw [h]) else .isFalse (by simp [h])
  | .ok _, .error _ => .isFalse (by simp)
  | .error _, .ok _ => .isFalse (by simp)
  | .error e, .error f =>
    if h : e = f then .isTrue (by rw [h]) else .isFalse (by simp [h])

/-- Model of Django's `name__startswith` lookup: codepoint-wise prefix test. -/
def strStartsWith (s p : String) : Bool := p.data.isPrefixOf s.data

/-- User row (`core.models.User`): id, `is_staff` (instructor flag) and
`cash_balance` in cents. -/
structure UserRec where
  id : Nat
  isStaff : Bool
  cashBalance : Int
deriving Repr, DecidableEq

/-- Session row (`core.models.MeditationSession`): unique generated `name`,
`instructor` (user id), `duration`, `max_participants`, `is_completed`. -/
structure MeditationSession where
  id : Nat
  name : String
  instructor : Nat
  duration : Nat
  maxParticipants : Nat
  isCompleted : Bool
deriving Repr, DecidableEq

/-- Enrollment row (`core.models.Enrollment`): one (user, session) admission. -/
structure Enrollment where
  user : Nat
  session : Nat
deriving Repr, DecidableEq

/-- Rating row (`core.models.Rating`). -/
structure Rating where
  user : Nat
  session : Nat
  rating : Int
  comment : String
deriving Repr, DecidableEq

/-- Subscription row (`core.models.Subscription`): `end_date` in days,
`is_active`, `cost` in cents. -/
structure Subscription where
  id : Nat
  user : Nat
  endDate : Int
  isActive : Bool
  cost : Int
deriving Repr, DecidableEq

/-- The relational store: one list per table, in insertion (primary-key) order. -/
structure AppState where
  users : List UserRec
  sessions : List MeditationSession
  enrollments : List Enrollment
  ratings : List Rating
  subscriptions : List Subscription
deriving Repr, DecidableEq

/-- Lookup of a session by primary key (`MeditationSession.objects.get(id=...)`
 / `get_object_or_404`). -/
def findSession (st : AppState) (sid : Nat) : Option MeditationSession :=
  st.sessions.find? (fun s => s.id == sid)

/-- `MeditationSession.current_participants`:
`Enrollment.objects.filter(session=self).count()`. -/
def current_participants (st : AppState) (sid : Nat) : Nat :=
  (st.enrollments.filter (fun e => e.session == sid)).length

/-- Test for an existing Enrollment row for the (user, session) pair
(`Enrollment.objects.filter(user=user, session=session).exists()`, and the
storage-level `unique_user_session` constraint). -/
def enrollmentExists (st : AppState) (uid sid : Nat) : Bool :=
  st.enrollments.any (fun e => e.user == uid && e.session == sid)

/-- Test for an existing Rating row by this user for this session
(`Rating.objects.filter(user=user, session=session).exists()`). -/
def ratingExists (st : AppState) (uid sid : Nat) : Bool :=
  st.ratings.any (fun r => r.user == uid && r.session == sid)

/-- Modelled from the spec: `check_user_subscription` is imported by
`EnrollmentViewSet.perform_create` from `meditation_session.utils`, but its
definition is not under `src/`.  Per the spec, "Active" = an associated
Subscription row with `is_active=true`. -/
def check_user_subscription (st : AppState) (uid : Nat) : Bool :=
  st.subscriptions.any (fun sub => sub.user == uid && sub.isActive)

/-- Errors surfaced by the enrollment creation path. -/
inductive EnrollError where
  /-- `MeditationSession.DoesNotExist` from the serializer's raw `.get`, or
  `Http404` from `get_object_or_404` in `perform_create`. -/
  | sessionDoesNotExist
  /-- "Sorry, this session is fully booked." -/
  | sessionFull
  /-- "You need an active subscription to enroll in this session." -/
  | subscriptionRequired
  /-- "You are already enrolled in this session." (translated `IntegrityError`) -/
  | alreadyEnrolled
deriving Repr, DecidableEq

/-- `EnrollmentDetailSerializer.validate`: fetch the session by the payload's
id and reject when `session.enrollments.count() >= session.max_participants`. -/
def enrollment_detail_validate (st : AppState) (sid : Nat) : Option EnrollError :=
  match findSession st sid with
  | none => some .sessionDoesNotExist
  | some s =>
    if s.maxParticipants ≤ current_participants st sid then some .sessionFull
    else none

/-- `EnrollmentViewSet.perform_create`: `get_object_or_404` on the session,
subscription gate, then `serializer.save` with the `IntegrityError` from the
`unique_user_session` constraint translated to the already-enrolled error. -/
def enrollment_perform_create (st : AppState) (uid sid : Nat) :
    Except EnrollError AppState :=
  match findSession st sid with
  | none => .error .sessionDoesNotExist
  | some _ =>
    if !check_user_subscription st uid then .error .subscriptionRequired
    else if enrollmentExists st uid sid then .error .alreadyEnrolled
    else .ok { st with enrollments := st.enrollments ++ [⟨uid, sid⟩] }

/-- Full enrollment creation flow as DRF executes it:
`serializer.is_valid` (which runs `EnrollmentDetailSerializer.validate`)
and only then `EnrollmentViewSet.perform_create`. -/
def enroll (st : AppState) (uid sid : Nat) : Except EnrollError AppState :=
  match enrollment_detail_validate st sid with
  | some e => .error e
  | none => enrollment_perform_create st uid sid

/-- `EnrollmentViewSet.perform_destroy` (default `DestroyModelMixin`): the
queryset is filtered to the requesting user's own enrollments, so a user can
delete only their own row; ratings are untouched. -/
def delete_enrollment (st : AppState) (uid sid : Nat) : AppState :=
  { st with enrollments :=
      st.enrollments.filter (fun e => !(e.user == uid && e.session == sid)) }

/-- Next autoincremented session primary key. -/
def next_session_id (st : AppState) : Nat :=
  (st.sessions.foldl (fun m s => max m s.id) 0) + 1

/-- Error surfaced by the session creation path. -/
inductive SessionCreateError where
  /-- `IntegrityError` from the `unique=True` constraint on
  `MeditationSession.name` when the synthesized name collides with an
  existing session's name: `session.save()` raises and nothing is stored. -/
  | duplicateName
deriving Repr, DecidableEq

/-- `MeditationSession.create`: count existing sessions whose `name` starts
with the requested base name and store `"{base} #{count+1}"`; `name` is
declared `unique=True`, so `session.save()` raises an `IntegrityError` when
the synthesized name is already taken, storing nothing. -/
def meditation_session_create (st : AppState) (name : String)
    (instructor duration maxParticipants : Nat) :
    Except SessionCreateError AppState :=
  let count := (st.sessions.filter (fun s => strStartsWith s.name name)).length
  let fullName :=
    if count == 0 then name ++ " #1"
    else name ++ " #" ++ Nat.repr (count + 1)
  if st.sessions.any (fun s => s.name == fullName) then .error .duplicateName
  else
    .ok { st with sessions :=
        st.sessions ++
          [⟨next_session_id st, fullName, instructor, duration,
            maxParticipants, false⟩] }

/-- `check_user_is_instructor` (`meditation_session/utils.py`): only staff
users may create sessions. -/
def check_user_is_instructor (st : AppState) (uid : Nat) : Bool :=
  st.users.any (fun u => u.id == uid && u.isStaff)

/-- `MeditationSessionViewSet.perform_create`: instructor gate, then
`MeditationSession.create`.  A failed gate, or the uncaught `IntegrityError`
on a name collision, leaves the store unchanged. -/
def session_perform_create (st : AppState) (name : String)
    (instructor duration maxParticipants : Nat) : AppState :=
  if check_user_is_instructor st instructor then
    match meditation_session_create st name instructor duration
        maxParticipants with
    | .ok st' => st'
    | .error _ => st
  else st

/-- `MeditationSessionViewSet.perform_destroy`: the creator deletes their own
session; the `on_delete=CASCADE` foreign keys also remove the session's
Enrollment and Rating rows. -/
def session_perform_destroy (st : AppState) (actor sid : Nat) : AppState :=
  match findSession st sid with
  | none => st
  | some s =>
    if s.instructor == actor then
      { st with
          sessions := st.sessions.filter (fun t => !(t.id == sid)),
          enrollments := st.enrollments.filter (fun e => !(e.session == sid)),
          ratings := st.ratings.filter (fun r => !(r.session == sid)) }
    else st

/-- `MeditationSessionViewSet.perform_update` restricted to the
`max_participants` field (writable in `MeditationSessionDetailSerializer`):
only the owning instructor may update, and there is no guard against lowering
the capacity below the current enrollment count. -/
def session_update_max_participants (st : AppState) (actor sid newMax : Nat) :
    AppState :=
  match findSession st sid with
  | none => st
  | some s =>
    if s.instructor == actor then
      { st with
          sessions := st.sessions.map (fun t =>
            if t.id == sid then { t with maxParticipants := newMax } else t) }
    else st

/-- `MeditationSessionViewSet.complete_session`: the creator marks the session
completed (the profile-statistics signal does not touch the tables modelled
here). -/
def complete_session (st : AppState) (actor sid : Nat) : AppState :=
  match findSession st sid with
  | none => st
  | some s =>
    if s.instructor == actor then
      { st with
          sessions := st.sessions.map (fun t =>
            if t.id == sid then { t with isCompleted := true } else t) }
    else st

/-- Errors surfaced by the rating creation path. -/
inductive RateError where
  /-- score outside the `MinValueValidator(1)` / `MaxValueValidator(5)` range -/
  | invalidScore
  /-- `MeditationSession.DoesNotExist` / `Http404` on the session lookup -/
  | sessionDoesNotExist
  /-- "You must be enrolled in the session to rate it." -/
  | notEnrolled
  /-- "You have already rated this session." -/
  | duplicateRating
  /-- "Instructors cannot rate their own sessions." -/
  | selfRatingForbidden
  /-- "You cannot rate a session that has not been completed yet." -/
  | sessionNotCompleted
deriving Repr, DecidableEq

/-- `RatingSerializer.validate`: enrollment check, duplicate-rating check,
then the own-session check, in that order. -/
def rating_serializer_validate (st : AppState) (uid sid : Nat) :
    Option RateError :=
  match findSession st sid with
  | none => some .sessionDoesNotExist
  | some s =>
    if !enrollmentExists st uid sid then some .notEnrolled
    else if ratingExists st uid sid then some .duplicateRating
    else if s.instructor == uid then some .selfRatingForbidden
    else none

/-- Full rating creation flow as DRF executes it: field validators on the
score (min 1 / max 5) run first, then `RatingSerializer.validate`, then
`RatingViewSet.perform_create` (completion gate and `serializer.save`). -/
def rate_session (st : AppState) (uid sid : Nat) (score : Int)
    (comment : String) : Except RateError AppState :=
  if score < 1 || 5 < score then .error .invalidScore
  else
    match rating_serializer_validate st uid sid with
    | some e => .error e
    | none =>
      match findSession st sid with
      | none => .error .sessionDoesNotExist
      | some s =>
        if !s.isCompleted then .error .sessionNotCompleted
        else .ok { st with ratings := st.ratings ++ [⟨uid, sid, score, comment⟩] }

/-- `RatingViewSet.perform_destroy`: the creator deletes their own rating. -/
def delete_rating (st : AppState) (uid sid : Nat) : AppState :=
  { st with ratings :=
      st.ratings.filter (fun r => !(r.user == uid && r.session == sid)) }

/-- Balance of a user (`user.cash_balance`), 0 for an unknown id. -/
def user_balance (st : AppState) (uid : Nat) : Int :=
  match st.users.find? (fun u => u.id == uid) with
  | some u => u.cashBalance
  | none => 0

/-- `deduct_user_balance` (`user/utils.py`): `user.cash_balance -= sub_cost`. -/
def deduct_user_balance (st : AppState) (uid : Nat) (subCost : Int) : AppState :=
  { st with
      users := st.users.map (fun u =>
        if u.id == uid then { u with cashBalance := u.cashBalance - subCost }
        else u) }

/-- `get_active_subscription` (`user/utils.py`):
`user.subscription.filter(is_active=True).first()`. -/
def get_active_subscription (st : AppState) (uid : Nat) : Option Subscription :=
  st.subscriptions.find? (fun sub => sub.user == uid && sub.isActive)

/-- Next autoincremented subscription primary key. -/
def next_subscription_id (st : AppState) : Nat :=
  (st.subscriptions.foldl (fun m s => max m s.id) 0) + 1

/-- Error surfaced by the subscription purchase path. -/
inductive PurchaseError where
  /-- "Insufficient funds." from `check_balance` -/
  | insufficientFunds
deriving Repr, DecidableEq

/-- `SubscriptionViewSet.perform_create`: `check_balance` (raises before any
mutation when `cash_balance < cost`), `deduct_user_balance`, then either
extend the active subscription's `end_date` by 30 days (no new row) or create
a new row with `end_date = now + 30 days` and `is_active = True`.  `cost` is
the configured default cost, `now` the current time in days. -/
def subscription_perform_create (st : AppState) (uid : Nat) (cost now : Int) :
    Except PurchaseError AppState :=
  if user_balance st uid < cost then .error .insufficientFunds
  else
    let st1 := deduct_user_balance st uid cost
    match get_active_subscription st1 uid with
    | some sub =>
      .ok { st1 with
              subscriptions := st1.subscriptions.map (fun t =>
                if t.id == sub.id then { t with endDate := t.endDate + 30 }
                else t) }
    | none =>
      .ok { st1 with
              subscriptions := st1.subscriptions ++
                [⟨next_subscription_id st1, uid, now + 30, true, cost⟩] }

/-- Expiry test of `check_expired_subscriptions`'s queryset:
`end_date__lt=current_time, is_active=True`. -/
def expiredActive (now : Int) (sub : Subscription) : Bool :=
  decide (sub.endDate < now) && sub.isActive

/-- `check_expired_subscriptions` (`user/utils.py`): deactivate every
subscription whose `end_date` is in the past and which is still active. -/
def check_expired_subscriptions (now : Int) (subs : List Subscription) :
    List Subscription :=
  subs.map (fun s => if expiredActive now s then { s with isActive := false }
                     else s)

/-- The periodic sweep applied to the whole store. -/
def sweep_expired (st : AppState) (now : Int) : AppState :=
  { st with subscriptions := check_expired_subscriptions now st.subscriptions }

/-- The program's operations on the store, one constructor per REST / periodic
entry point modelled above. -/
inductive Op where
  | createSession (name : String) (instructor duration maxParticipants : Nat)
  | deleteSession (actor sid : Nat)
  | updateMaxParticipants (actor sid newMax : Nat)
  | completeSession (actor sid : Nat)
  | enroll (uid sid : Nat)
  | deleteEnrollment (uid sid : Nat)
  | rateSession (uid sid : Nat) (score : Int) (comment : String)
  | deleteRating (uid sid : Nat)
  | purchase (uid : Nat) (cost now : Int)
  | sweep (now : Int)
deriving Repr, DecidableEq

/-- One request: operations whose creation path errors leave the store
unchanged (the error is returned to the caller). -/
def step (st : AppState) (op : Op) : AppState :=
  match op with
  | .createSession n i d m => session_perform_create st n i d m
  | .deleteSession a sid => session_perform_destroy st a sid
  | .updateMaxParticipants a sid m => session_update_max_participants st a sid m
  | .completeSession a sid => complete_session st a sid
  | .enroll uid sid =>
    match enroll st uid sid with
    | .ok st' => st'
    | .error _ => st
  | .deleteEnrollment uid sid => delete_enrollment st uid sid
  | .rateSession uid sid score c =>
    match rate_session st uid sid score c with
    | .ok st' => st'
    | .error _ => st
  | .deleteRating uid sid => delete_rating st uid sid
  | .purchase uid cost now =>
    match subscription_perform_create st uid cost now with
    | .ok st' => st'
    | .error _ => st
  | .sweep now => sweep_expired st now

/-- Execution of a list of operations, first to last. -/
def execOps (st : AppState) (ops : List Op) : AppState :=
  ops.foldl step st

/-- Reachability by the program's operations. -/
def Reachable (st st' : AppState) : Prop :=
  ∃ ops : List Op, execOps st ops = st'

/-- Capacity invariant claimed by the spec: every session's enrollment count
is at most its `max_participants`. -/
def capacityOk (st : AppState) : Bool :=
  st.sessions.all (fun s => decide (current_participants st s.id ≤ s.maxParticipants))

/-- Number of Enrollment rows for a (user, session) pair. -/
def enrollmentCount (st : AppState) (uid sid : Nat) : Nat :=
  st.enrollments.countP (fun e => e.user == uid && e.session == sid)

/-- Number of Rating rows for a (user, session) pair. -/
def ratingCount (st : AppState) (uid sid : Nat) : Nat :=
  st.ratings.countP (fun r => r.user == uid && r.session == sid)

/-- Uniqueness invariant: at most one Enrollment row per (user, session). -/
def enrollmentsUnique (st : AppState) : Prop :=
  ∀ uid sid : Nat, enrollmentCount st uid sid ≤ 1

/-- Uniqueness invariant: at most one Rating row per (user, session). -/
def ratingsUnique (st : AppState) : Prop :=
  ∀ uid sid : Nat, ratingCount st uid sid ≤ 1

/-- Support part of the claimed Rating invariant: every Rating row has a
matching Enrollment row. -/
def ratingsSupported (st : AppState) : Bool :=
  st.ratings.all (fun r => enrollmentExists st r.user r.session)

/-- Demo population: one instructor (id 1) and two members (ids 2, 3) with
200.00 in their balance each. -/
def demoUsers : List UserRec :=
  [⟨1, true, 0⟩, ⟨2, false, 20000⟩, ⟨3, false, 20000⟩]

/-- Demo starting store: the three users, no other rows. -/
def demoInit : AppState := ⟨demoUsers, [], [], [], []⟩

/-- Trace refuting C1: create a 2-seat session, both members buy a
subscription and enroll, then the instructor lowers `max_participants` to 1. -/
def capacityBreakTrace : List Op :=
  [.createSession "A" 1 30 2, .purchase 2 12050 0, .purchase 3 12050 0,
   .enroll 2 1, .enroll 3 1, .updateMaxParticipants 1 1 1]

/-- Trace refuting the enrollment-support half of C8: member 2 enrolls in a
session, the instructor completes it, member 2 rates it and then deletes the
enrollment; the rating stays behind. -/
def orphanRatingTrace : List Op :=
  [.createSession "A" 1 30 20, .purchase 2 12050 0, .enroll 2 1,
   .completeSession 1 1, .rateSession 2 1 5 "calm", .deleteEnrollment 2 1]

/-- Store refuting C3's check order: a full 1-seat session and member 3, who
holds no subscription at all. -/
def fullNoSubState : AppState :=
  ⟨demoUsers, [⟨1, "A #1", 1, 30, 1, false⟩], [⟨2, 1⟩], [], []⟩

/-- Store refuting C2's error choice: member 2 is already enrolled in a
1-seat (hence full) session and holds an active subscription. -/
def fullEnrolledState : AppState :=
  ⟨demoUsers, [⟨1, "A #1", 1, 30, 1, false⟩], [⟨2, 1⟩], [],
   [⟨1, 2, 100, true, 12050⟩]⟩

/-- Store with a completed 20-seat session in which both its instructor
(user 1) and member 2 are enrolled, and member 2 holds an active
subscription. -/
def completedState : AppState :=
  ⟨demoUsers, [⟨1, "A #1", 1, 30, 20, true⟩], [⟨1, 1⟩, ⟨2, 1⟩], [],
   [⟨1, 2, 100, true, 12050⟩]⟩

/-- Store with a single member whose balance is 100.00 (10000 cents). -/
def poorUserState : AppState :=
  ⟨[⟨2, false, 10000⟩], [], [], [], []⟩

/-- Store holding one session unrelated to the base name "Morning". -/
def morningInit : AppState :=
  ⟨demoUsers, [⟨1, "Zen #1", 1, 30, 20, false⟩], [], [], []⟩

/-- Store holding exactly one session, named "Morning Star #1". -/
def morningStarState : AppState :=
  ⟨demoUsers, [⟨1, "Morning Star #1", 1, 30, 20, false⟩], [], [], []⟩

/-- Trace reaching a name-collision state for base "C": create base "C x"
(stored "C x #1"), create base "C" (one "C"-prefixed session, so stored
"C #2"), then delete "C x #1".  Only "C #2" remains, and a further create
with base "C" synthesizes the already-taken name "C #2". -/
def nameCollisionTrace : List Op :=
  [.createSession "C x" 1 30 20, .createSession "C" 1 30 20,
   .deleteSession 1 1]

/-- Result of a successful creation with base "Morning" on `morningInit`. -/
def c9OkState : AppState :=
  ⟨demoUsers,
   [⟨1, "Zen #1", 1, 30, 20, false⟩, ⟨2, "Morning #1", 1, 30, 20, false⟩],
   [], [], []⟩

/-- Result of a successful creation with base "Morning" on
`morningStarState`. -/
def c10State : AppState :=
  ⟨demoUsers,
   [⟨1, "Morning Star #1", 1, 30, 20, false⟩,
    ⟨2, "Morning #2", 1, 30, 20, false⟩],
   [], [], []⟩

/-! Inversion and projection lemmas about the operations. -/

/-- The two branches of the synthesized session name coincide with the
uniform `"{base} #{count+1}"` formula. -/
theorem session_full_name_collapse (base : String) (n : Nat) :
    (if n == 0 then base ++ " #1" else base ++ " #" ++ Nat.repr (n + 1)) =
      base ++ " #" ++ Nat.repr (n + 1) := by
  by_cases hn : (n == 0) = true
  · have h0 : n = 0 := by simpa using hn
    subst h0
    rw [if_pos hn, String.append_assoc]
    exact rfl
  · rw [if_neg hn]

/-- A successful session creation appends exactly one row, named by the
`"{base} #{count+1}"` formula over the pre-state. -/
theorem meditation_session_create_ok_eq {st st' : AppState} {base : String}
    {i d m : Nat} (h : meditation_session_create st base i d m = .ok st') :
    st' = { st with sessions := st.sessions ++
        [⟨next_session_id st,
          base ++ " #" ++
            Nat.repr
              ((st.sessions.filter
                  (fun s => strStartsWith s.name base)).length + 1),
          i, d, m, false⟩] } := by
  simp only [meditation_session_create] at h
  simp only [session_full_name_collapse] at h
  cases hcol : st.sessions.any (fun s =>
      s.name == base ++ " #" ++
        Nat.repr
          ((st.sessions.filter
              (fun s => strStartsWith s.name base)).length + 1)) with
  | true => simp [hcol] at h
  | false =>
    simp [hcol] at h
    exact h.symm

/-- A failed session creation is exactly a collision of the synthesized name
with an existing session's name. -/
theorem meditation_session_create_error_iff (st : AppState) (base : String)
    (i d m : Nat) :
    meditation_session_create st base i d m = .error .duplicateName ↔
      st.sessions.any (fun s =>
        s.name == base ++ " #" ++
          Nat.repr
            ((st.sessions.filter
                (fun s => strStartsWith s.name base)).length + 1)) = true := by
  simp only [meditation_session_create, session_full_name_collapse]
  cases hcol : st.sessions.any (fun s =>
      s.name == base ++ " #" ++
        Nat.repr
          ((st.sessions.filter
              (fun s => strStartsWith s.name base)).length + 1)) with
  | true => simp [hcol]
  | false => simp [hcol]

/-- Session creation touches only the sessions table. -/
theorem session_perform_create_enrollments (st : AppState) (n : String)
    (i d m : Nat) :
    (session_perform_create st n i d m).enrollments = st.enrollments := by
  unfold session_perform_create
  split
  · cases hm : meditation_session_create st n i d m with
    | ok st' =>
      have h := meditation_session_create_ok_eq hm
      subst h
      rfl
    | error e => rfl
  · rfl

/-- Session creation touches only the sessions table. -/
theorem session_perform_create_ratings (st : AppState) (n : String)
    (i d m : Nat) :
    (session_perform_create st n i d m).ratings = st.ratings := by
  unfold session_perform_create
  split
  · cases hm : meditation_session_create st n i d m with
    | ok st' =>
      have h := meditation_session_create_ok_eq hm
      subst h
      rfl
    | error e => rfl
  · rfl

/-- Session deletion can only remove enrollment rows. -/
theorem session_perform_destroy_enrollments (st : AppState) (a sid : Nat) :
    List.Sublist (session_perform_destroy st a sid).enrollments
      st.enrollments := by
  unfold session_perform_destroy
  split
  · exact List.Sublist.refl _
  · split
    · exact List.filter_sublist _
    · exact List.Sublist.refl _

/-- Session deletion can only remove rating rows. -/
theorem session_perform_destroy_ratings (st : AppState) (a sid : Nat) :
    List.Sublist (session_perform_destroy st a sid).ratings st.ratings := by
  unfold session_perform_destroy
  split
  · exact List.Sublist.refl _
  · split
    · exact List.filter_sublist _
    · exact List.Sublist.refl _

/-- Capacity updates touch only the sessions table. -/
theorem session_update_enrollments (st : AppState) (a sid m : Nat) :
    (session_update_max_participants st a sid m).enrollments = st.enrollments := by
  unfold session_update_max_participants
  split <;> first | rfl | (split <;> rfl)

/-- Capacity updates touch only the sessions table. -/
theorem session_update_ratings (st : AppState) (a sid m : Nat) :
    (session_update_max_participants st a sid m).ratings = st.ratings := by
  unfold session_update_max_participants
  split <;> first | rfl | (split <;> rfl)

/-- Completing a session touches only the sessions table. -/
theorem complete_session_enrollments (st : AppState) (a sid : Nat) :
    (complete_session st a sid).enrollments = st.enrollments := by
  unfold complete_session
  split <;> first | rfl | (split <;> rfl)

/-- Completing a session touches only the sessions table. -/
theorem complete_session_ratings (st : AppState) (a sid : Nat) :
    (complete_session st a sid).ratings = st.ratings := by
  unfold complete_session
  split <;> first | rfl | (split <;> rfl)

/-- The sweep touches only the subscriptions table. -/
theorem sweep_expired_enrollments (st : AppState) (now : Int) :
    (sweep_expired st now).enrollments = st.enrollments := rfl

/-- The sweep touches only the subscriptions table. -/
theorem sweep_expired_ratings (st : AppState) (now : Int) :
    (sweep_expired st now).ratings = st.ratings := rfl

/-- A successful enrollment appends exactly the new (user, session) row, and
its guards all held on the pre-state. -/
theorem enroll_ok_inv {st st' : AppState} {uid sid : Nat}
    (h : enroll st uid sid = .ok st') :
    ∃ s, findSession st sid = some s ∧
      current_participants st sid < s.maxParticipants ∧
      check_user_subscription st uid = true ∧
      enrollmentExists st uid sid = false ∧
      st' = { st with enrollments := st.enrollments ++ [⟨uid, sid⟩] } := by
  cases hf : findSession st sid with
  | none => simp [enroll, enrollment_detail_validate, hf] at h
  | some s =>
    by_cases hcap : s.maxParticipants ≤ current_participants st sid
    · simp [enroll, enrollment_detail_validate, hf, hcap] at h
    · cases hsub : check_user_subscription st uid with
      | false =>
        simp [enroll, enrollment_detail_validate, enrollment_perform_create,
          hf, hcap, hsub] at h
      | true =>
        cases hdup : enrollmentExists st uid sid with
        | true =>
          simp [enroll, enrollment_detail_validate, enrollment_perform_create,
            hf, hcap, hsub, hdup] at h
        | false =>
          refine ⟨s, rfl, Nat.lt_of_not_le hcap, rfl, rfl, ?_⟩
          simp [enroll, enrollment_detail_validate, enrollment_perform_create,
            hf, hcap, hsub, hdup] at h
          exact h.symm

/-- A successful rating appends exactly the new row, and its guards all held
on the pre-state. -/
theorem rate_ok_inv {st st' : AppState} {uid sid : Nat} {score : Int}
    {c : String} (h : rate_session st uid sid score c = .ok st') :
    ∃ s, findSession st sid = some s ∧
      1 ≤ score ∧ score ≤ 5 ∧
      enrollmentExists st uid sid = true ∧
      ratingExists st uid sid = false ∧
      s.instructor ≠ uid ∧
      s.isCompleted = true ∧
      st' = { st with ratings := st.ratings ++ [⟨uid, sid, score, c⟩] } := by
  by_cases hsc : score < 1 || 5 < score
  · simp [rate_session, hsc] at h
  · cases hf : findSession st sid with
    | none => simp [rate_session, rating_serializer_validate, hsc, hf] at h
    | some s =>
      cases henr : enrollmentExists st uid sid with
      | false =>
        simp [rate_session, rating_serializer_validate, hsc, hf, henr] at h
      | true =>
        cases hdup : ratingExists st uid sid with
        | true =>
          simp [rate_session, rating_serializer_validate, hsc, hf, henr,
            hdup] at h
        | false =>
          by_cases hself : s.instructor == uid
          · simp [rate_session, rating_serializer_validate, hsc, hf, henr,
              hdup, hself] at h
          · cases hcmp : s.isCompleted with
            | false =>
              simp [rate_session, rating_serializer_validate, hsc, hf, henr,
                hdup, hself, hcmp] at h
            | true =>
              have hrange : ¬score < 1 ∧ ¬5 < score := by
                simpa [Bool.or_eq_true, not_or] using hsc
              refine ⟨s, rfl, Int.not_lt.mp hrange.1, Int.not_lt.mp hrange.2,
                rfl, rfl, by simpa using hself, hcmp, ?_⟩
              simp [rate_session, rating_serializer_validate, hsc, hf, henr,
                hdup, hself, hcmp] at h
              exact h.symm

/-- A successful purchase leaves the sessions, enrollments and ratings tables
untouched. -/
theorem purchase_ok_inv {st st' : AppState} {uid : Nat} {cost now : Int}
    (h : subscription_perform_create st uid cost now = .ok st') :
    st'.sessions = st.sessions ∧ st'.enrollments = st.enrollments ∧
      st'.ratings = st.ratings := by
  by_cases hb : user_balance st uid < cost
  · simp [subscription_perform_create, hb] at h
  · cases hact : get_active_subscription (deduct_user_balance st uid cost) uid with
    | some sub =>
      simp [subscription_perform_create, hb, hact] at h
      subst h
      simp [deduct_user_balance]
    | none =>
      simp [subscription_perform_create, hb, hact] at h
      subst h
      simp [deduct_user_balance]

/-- Pair counts only look at the enrollments table. -/
theorem enrollmentCount_congr {st' st : AppState}
    (h : st'.enrollments = st.enrollments) (uid sid : Nat) :
    enrollmentCount st' uid sid = enrollmentCount st uid sid := by
  simp [enrollmentCount, h]

/-- Pair counts only look at the ratings table. -/
theorem ratingCount_congr {st' st : AppState}
    (h : st'.ratings = st.ratings) (uid sid : Nat) :
    ratingCount st' uid sid = ratingCount st uid sid := by
  simp [ratingCount, h]

/-- Transfer of the enrollment-uniqueness invariant along an unchanged table. -/
theorem enrollmentsUnique_of_eq {st' st : AppState}
    (h : st'.enrollments = st.enrollments) (hu : enrollmentsUnique st) :
    enrollmentsUnique st' := fun uid sid => by
  rw [enrollmentCount_congr h]; exact hu uid sid

/-- Transfer of the rating-uniqueness invariant along an unchanged table. -/
theorem ratingsUnique_of_eq {st' st : AppState}
    (h : st'.ratings = st.ratings) (hu : ratingsUnique st) :
    ratingsUnique st' := fun uid sid => by
  rw [ratingCount_congr h]; exact hu uid sid

/-- Every operation preserves at-most-one-Enrollment-per-(user, session). -/
theorem step_preserves_enrollmentsUnique (st : AppState) (op : Op)
    (h : enrollmentsUnique st) : enrollmentsUnique (step st op) := by
  cases op with
  | createSession n i d m =>
    exact enrollmentsUnique_of_eq (session_perform_create_enrollments st n i d m) h
  | deleteSession a sid =>
    intro u s'
    calc enrollmentCount (step st (.deleteSession a sid)) u s'
        ≤ enrollmentCount st u s' := by
          simp only [step, enrollmentCount]
          exact List.Sublist.countP_le _
            (session_perform_destroy_enrollments st a sid)
      _ ≤ 1 := h u s'
  | updateMaxParticipants a sid m =>
    exact enrollmentsUnique_of_eq (session_update_enrollments st a sid m) h
  | completeSession a sid =>
    exact enrollmentsUnique_of_eq (complete_session_enrollments st a sid) h
  | enroll uid sid =>
    intro u s'
    cases henr : enroll st uid sid with
    | error e => simpa [step, henr] using h u s'
    | ok st' =>
      obtain ⟨s, hf, hcap, hsub, hdup, rfl⟩ := enroll_ok_inv henr
      have hzero : ∀ x ∈ st.enrollments,
          ¬(x.user == uid && x.session == sid) = true := by
        simpa [enrollmentExists] using hdup
      simp only [step, henr, enrollmentCount, List.countP_append]
      by_cases hu : uid = u ∧ sid = s'
      · obtain ⟨rfl, rfl⟩ := hu
        have h0 : st.enrollments.countP
            (fun e => e.user == uid && e.session == sid) = 0 :=
          List.countP_eq_zero.mpr hzero
        simp [h0, List.countP_cons]
      · have hx : ((uid == u) && (sid == s')) = false := by
          by_cases h1 : uid = u
          · subst h1
            have h2 : sid ≠ s' := fun hs => hu ⟨rfl, hs⟩
            simp [h2]
          · simp [h1]
        simpa [List.countP_cons, hx] using h u s'
  | deleteEnrollment uid sid =>
    intro u s'
    calc enrollmentCount (step st (.deleteEnrollment uid sid)) u s'
        ≤ enrollmentCount st u s' := by
          simp only [step, delete_enrollment, enrollmentCount]
          exact List.Sublist.countP_le _ (List.filter_sublist _)
      _ ≤ 1 := h u s'
  | rateSession uid sid score c =>
    cases hr : rate_session st uid sid score c with
    | error e => simpa [step, hr] using h
    | ok st' =>
      obtain ⟨s, hf, h1, h5, henr, hdup, hown, hcmp, rfl⟩ := rate_ok_inv hr
      exact enrollmentsUnique_of_eq (by simp [step, hr]) h
  | deleteRating uid sid =>
    exact enrollmentsUnique_of_eq rfl h
  | purchase uid cost now =>
    cases hp : subscription_perform_create st uid cost now with
    | error e => simpa [step, hp] using h
    | ok st' =>
      exact enrollmentsUnique_of_eq (by simp [step, hp, (purchase_ok_inv hp).2.1]) h
  | sweep now =>
    exact enrollmentsUnique_of_eq (sweep_expired_enrollments st now) h

/-- Every operation preserves at-most-one-Rating-per-(user, session). -/
theorem step_preserves_ratingsUnique (st : AppState) (op : Op)
    (h : ratingsUnique st) : ratingsUnique (step st op) := by
  cases op with
  | createSession n i d m =>
    exact ratingsUnique_of_eq (session_perform_create_ratings st n i d m) h
  | deleteSession a sid =>
    intro u s'
    calc ratingCount (step st (.deleteSession a sid)) u s'
        ≤ ratingCount st u s' := by
          simp only [step, ratingCount]
          exact List.Sublist.countP_le _
            (session_perform_destroy_ratings st a sid)
      _ ≤ 1 := h u s'
  | updateMaxParticipants a sid m =>
    exact ratingsUnique_of_eq (session_update_ratings st a sid m) h
  | completeSession a sid =>
    exact ratingsUnique_of_eq (complete_session_ratings st a sid) h
  | enroll uid sid =>
    cases henr : enroll st uid sid with
    | error e => simpa [step, henr] using h
    | ok st' =>
      obtain ⟨s, hf, hcap, hsub, hdup, rfl⟩ := enroll_ok_inv henr
      exact ratingsUnique_of_eq (by simp [step, henr]) h
  | deleteEnrollment uid sid =>
    exact ratingsUnique_of_eq rfl h
  | rateSession uid sid score c =>
    intro u s'
    cases hr : rate_session st uid sid score c with
    | error e => simpa [step, hr] using h u s'
    | ok st' =>
      obtain ⟨s, hf, h1, h5, henr, hdup, hown, hcmp, rfl⟩ := rate_ok_inv hr
      have hzero : ∀ x ∈ st.ratings,
          ¬(x.user == uid && x.session == sid) = true := by
        simpa [ratingExists] using hdup
      simp only [step, hr, ratingCount, List.countP_append]
      by_cases hu : uid = u ∧ sid = s'
      · obtain ⟨rfl, rfl⟩ := hu
        have h0 : st.ratings.countP
            (fun r => r.user == uid && r.session == sid) = 0 :=
          List.countP_eq_zero.mpr hzero
        simp [h0, List.countP_cons]
      · have hx : ((uid == u) && (sid == s')) = false := by
          by_cases h1 : uid = u
          · subst h1
            have h2 : sid ≠ s' := fun hs => hu ⟨rfl, hs⟩
            simp [h2]
          · simp [h1]
        simpa [List.countP_cons, hx] using h u s'
  | deleteRating uid sid =>
    intro u s'
    calc ratingCount (step st (.deleteRating uid sid)) u s'
        ≤ ratingCount st u s' := by
          simp only [step, delete_rating, ratingCount]
          exact List.Sublist.countP_le _ (List.filter_sublist _)
      _ ≤ 1 := h u s'
  | purchase uid cost now =>
    cases hp : subscription_perform_create st uid cost now with
    | error e => simpa [step, hp] using h
    | ok st' =>
      exact ratingsUnique_of_eq (by simp [step, hp, (purchase_ok_inv hp).2.2]) h
  | sweep now =>
    exact ratingsUnique_of_eq (sweep_expired_ratings st now) h

/-- Enrolling against a missing session surfaces the session-lookup failure. -/
theorem enroll_session_missing (st : AppState) (uid sid : Nat)
    (h : findSession st sid = none) :
    enroll st uid sid = .error .sessionDoesNotExist := by
  simp [enroll, enrollment_detail_validate, h]

/-- Enrolling in a session at (or beyond) capacity is rejected as full. -/
theorem enroll_full (st : AppState) (uid sid : Nat) (s : MeditationSession)
    (hs : findSession st sid = some s)
    (hfull : s.maxParticipants ≤ current_participants st sid) :
    enroll st uid sid = .error .sessionFull := by
  simp [enroll, enrollment_detail_validate, hs, hfull]

/-- With seats free but no active subscription, enrolling is rejected with the
subscription error. -/
theorem enroll_no_subscription (st : AppState) (uid sid : Nat)
    (s : MeditationSession) (hs : findSession st sid = some s)
    (hcap : current_participants st sid < s.maxParticipants)
    (hsub : check_user_subscription st uid = false) :
    enroll st uid sid = .error .subscriptionRequired := by
  simp [enroll, enrollment_detail_validate, enrollment_perform_create, hs,
    Nat.not_le.mpr hcap, hsub]

/-- With seats free and an active subscription, a duplicate pair is rejected
with the translated uniqueness error. -/
theorem enroll_already (st : AppState) (uid sid : Nat) (s : MeditationSession)
    (hs : findSession st sid = some s)
    (hcap : current_participants st sid < s.maxParticipants)
    (hsub : check_user_subscription st uid = true)
    (hdup : enrollmentExists st uid sid = true) :
    enroll st uid sid = .error .alreadyEnrolled := by
  simp [enroll, enrollment_detail_validate, enrollment_perform_create, hs,
    Nat.not_le.mpr hcap, hsub, hdup]

/-- With all four checks passing, exactly the new row is appended. -/
theorem enroll_success (st : AppState) (uid sid : Nat) (s : MeditationSession)
    (hs : findSession st sid = some s)
    (hcap : current_participants st sid < s.maxParticipants)
    (hsub : check_user_subscription st uid = true)
    (hdup : enrollmentExists st uid sid = false) :
    enroll st uid sid = .ok { st with enrollments := st.enrollments ++ [⟨uid, sid⟩] } := by
  simp [enroll, enrollment_detail_validate, enrollment_perform_create, hs,
    Nat.not_le.mpr hcap, hsub, hdup]

/-- Appending the new pair raises that session's enrollment count by one. -/
theorem current_participants_append (st : AppState) (uid sid : Nat) :
    current_participants
        { st with enrollments := st.enrollments ++ [⟨uid, sid⟩] } sid =
      current_participants st sid + 1 := by
  simp [current_participants, List.filter_append]

/-- Deducting the cost maps the user-table lookup pointwise. -/
theorem find?_deduct (l : List UserRec) (uid : Nat) (cost : Int) :
    (l.map (fun u =>
        if u.id == uid then { u with cashBalance := u.cashBalance - cost }
        else u)).find? (fun u => u.id == uid)
      = (l.find? (fun u => u.id == uid)).map
          (fun u => { u with cashBalance := u.cashBalance - cost }) := by
  induction l with
  | nil => rfl
  | cons a l ih =>
    cases ha : (a.id == uid) with
    | true =>
      have hpos : ((if a.id == uid then
          { a with cashBalance := a.cashBalance - cost } else a).id == uid) = true := by
        simp [ha]
      simp only [List.map_cons]
      rw [List.find?_cons_of_pos (p := fun (u : UserRec) => u.id == uid) _ hpos,
        List.find?_cons_of_pos (p := fun (u : UserRec) => u.id == uid) _ ha]
      simp [ha]
    | false =>
      have hneg : ¬((if a.id == uid then
          { a with cashBalance := a.cashBalance - cost } else a).id == uid) = true := by
        simp [ha]
      simp only [List.map_cons]
      rw [List.find?_cons_of_neg (p := fun (u : UserRec) => u.id == uid) _ hneg,
        List.find?_cons_of_neg (p := fun (u : UserRec) => u.id == uid) _ (by simp [ha])]
      exact ih

/-- Balance of the purchasing user after `deduct_user_balance`. -/
theorem user_balance_deduct (st : AppState) (uid : Nat) (cost : Int)
    (u : UserRec) (hu : st.users.find? (fun x => x.id == uid) = some u) :
    user_balance (deduct_user_balance st uid cost) uid = u.cashBalance - cost := by
  unfold user_balance deduct_user_balance
  rw [find?_deduct, hu]
  rfl

/-- Updating one subscription's `end_date` changes no row's owner, so the
per-user row count is unchanged. -/
theorem countP_user_update (l : List Subscription) (uid sid₀ : Nat) :
    (l.map (fun t =>
        if t.id == sid₀ then { t with endDate := t.endDate + 30 } else t)).countP
        (fun t => t.user == uid)
      = l.countP (fun t => t.user == uid) := by
  rw [List.countP_map]
  apply List.countP_congr
  intro x _
  by_cases hid : (x.id == sid₀) = true <;> simp [Function.comp, hid]

/-- With sufficient balance and an active subscription, the purchase extends
that subscription's `end_date` in place. -/
theorem purchase_renews (st : AppState) (uid : Nat) (cost now : Int)
    (sub : Subscription) (hb : ¬user_balance st uid < cost)
    (hact : get_active_subscription st uid = some sub) :
    subscription_perform_create st uid cost now =
      .ok { deduct_user_balance st uid cost with
            subscriptions := st.subscriptions.map (fun t =>
              if t.id == sub.id then { t with endDate := t.endDate + 30 }
              else t) } := by
  have hact' :
      get_active_subscription (deduct_user_balance st uid cost) uid = some sub :=
    hact
  simp [subscription_perform_create, hb, hact']
  rfl

/-- With sufficient balance and no active subscription, the purchase appends
exactly one new active row ending 30 days out. -/
theorem purchase_creates (st : AppState) (uid : Nat) (cost now : Int)
    (hb : ¬user_balance st uid < cost)
    (hact : get_active_subscription st uid = none) :
    subscription_perform_create st uid cost now =
      .ok { deduct_user_balance st uid cost with
            subscriptions := st.subscriptions ++
              [⟨next_subscription_id st, uid, now + 30, true, cost⟩] } := by
  have hact' :
      get_active_subscription (deduct_user_balance st uid cost) uid = none :=
    hact
  simp [subscription_perform_create, hb, hact']
  rfl

/-- Out-of-range scores are rejected by the field validators. -/
theorem rate_invalid_score (st : AppState) (uid sid : Nat) (score : Int)
    (c : String) (h : score < 1 ∨ 5 < score) :
    rate_session st uid sid score c = .error .invalidScore := by
  have hb : (score < 1 || 5 < score) = true := by
    cases h with
    | inl h => simp [h]
    | inr h => simp [h]
  simp [rate_session, hb]

/-- A user not enrolled in the session cannot rate it. -/
theorem rate_not_enrolled (st : AppState) (uid sid : Nat) (score : Int)
    (c : String) (s : MeditationSession) (hs : findSession st sid = some s)
    (h1 : 1 ≤ score) (h5 : score ≤ 5)
    (henr : enrollmentExists st uid sid = false) :
    rate_session st uid sid score c = .error .notEnrolled := by
  have hsc : (score < 1 || 5 < score) = false := by
    simp [Int.not_lt.mpr h1, Int.not_lt.mpr h5]
  simp [rate_session, rating_serializer_validate, hsc, hs, henr]

/-- A second rating by the same user for the same session is rejected. -/
theorem rate_duplicate (st : AppState) (uid sid : Nat) (score : Int)
    (c : String) (s : MeditationSession) (hs : findSession st sid = some s)
    (h1 : 1 ≤ score) (h5 : score ≤ 5)
    (henr : enrollmentExists st uid sid = true)
    (hdup : ratingExists st uid sid = true) :
    rate_session st uid sid score c = .error .duplicateRating := by
  have hsc : (score < 1 || 5 < score) = false := by
    simp [Int.not_lt.mpr h1, Int.not_lt.mpr h5]
  simp [rate_session, rating_serializer_validate, hsc, hs, henr, hdup]

/-- The session's instructor cannot rate their own session. -/
theorem rate_self_forbidden (st : AppState) (uid sid : Nat) (score : Int)
    (c : String) (s : MeditationSession) (hs : findSession st sid = some s)
    (h1 : 1 ≤ score) (h5 : score ≤ 5)
    (henr : enrollmentExists st uid sid = true)
    (hdup : ratingExists st uid sid = false) (hown : s.instructor = uid) :
    rate_session st uid sid score c = .error .selfRatingForbidden := by
  have hsc : (score < 1 || 5 < score) = false := by
    simp [Int.not_lt.mpr h1, Int.not_lt.mpr h5]
  simp [rate_session, rating_serializer_validate, hsc, hs, henr, hdup, hown]

/-- A session still ongoing cannot be rated. -/
theorem rate_not_completed (st : AppState) (uid sid : Nat) (score : Int)
    (c : String) (s : MeditationSession) (hs : findSession st sid = some s)
    (h1 : 1 ≤ score) (h5 : score ≤ 5)
    (henr : enrollmentExists st uid sid = true)
    (hdup : ratingExists st uid sid = false) (hown : s.instructor ≠ uid)
    (hcmp : s.isCompleted = false) :
    rate_session st uid sid score c = .error .sessionNotCompleted := by
  have hsc : (score < 1 || 5 < score) = false := by
    simp [Int.not_lt.mpr h1, Int.not_lt.mpr h5]
  have hbeq : (s.instructor == uid) = false := by simp [hown]
  simp [rate_session, rating_serializer_validate, hsc, hs, henr, hdup, hbeq,
    hcmp]

/-- When every gate passes, exactly the new Rating row is appended. -/
theorem rate_success (st : AppState) (uid sid : Nat) (score : Int)
    (c : String) (s : MeditationSession) (hs : findSession st sid = some s)
    (h1 : 1 ≤ score) (h5 : score ≤ 5)
    (henr : enrollmentExists st uid sid = true)
    (hdup : ratingExists st uid sid = false) (hown : s.instructor ≠ uid)
    (hcmp : s.isCompleted = true) :
    rate_session st uid sid score c =
      .ok { st with ratings := st.ratings ++ [⟨uid, sid, score, c⟩] } := by
  have hsc : (score < 1 || 5 < score) = false := by
    simp [Int.not_lt.mpr h1, Int.not_lt.mpr h5]
  have hbeq : (s.instructor == uid) = false := by simp [hown]
  simp [rate_session, rating_serializer_validate, hsc, hs, henr, hdup, hbeq,
    hcmp]

/-- C1 counterexample: the capacity invariant does not hold in every state
reachable by the program's operations.  From a store that satisfies it, a
session is created with 2 seats, two subscribed members enroll, and the
instructor then updates `max_participants` down to 1: the reached state has
2 enrollments against a capacity of 1. -/
theorem claim_C1_counterexample :
    capacityOk demoInit = true ∧
    ∃ st : AppState, Reachable demoInit st ∧ capacityOk st = false :=
  ⟨by decide,
   ⟨execOps demoInit capacityBreakTrace, ⟨capacityBreakTrace, rfl⟩, by decide⟩⟩

/-- C1 (amended): the enroll operation itself respects capacity — an enroll
attempt against a session at (or beyond) capacity is rejected with the
session-full error (so no Enrollment is created), and a successful enroll
raises the session's count by exactly one, staying within capacity.  The
original all-operations invariant fails only because a session update may
lower `max_participants` below the current count. -/
theorem claim_C1_enroll_respects_capacity (st : AppState) (uid sid : Nat)
    (s : MeditationSession) (hs : findSession st sid = some s) :
    (s.maxParticipants ≤ current_participants st sid →
      enroll st uid sid = .error .sessionFull ∧
        step st (.enroll uid sid) = st) ∧
    (∀ st', enroll st uid sid = .ok st' →
      current_participants st' sid = current_participants st sid + 1 ∧
      current_participants st' sid ≤ s.maxParticipants) := by
  constructor
  · intro hfull
    have he := enroll_full st uid sid s hs hfull
    exact ⟨he, by simp [step, he]⟩
  · intro st' hok
    obtain ⟨s₀, hf₀, hcap₀, _, _, rfl⟩ := enroll_ok_inv hok
    have hss : s₀ = s := by
      have := hf₀.symm.trans hs
      exact Option.some.inj this
    subst hss
    rw [current_participants_append]
    exact ⟨rfl, Nat.succ_le_of_lt hcap₀⟩

/-- C1 witness: on a store whose only session has 1 seat already taken, the
enroll attempt is rejected as full and the store is unchanged. -/
theorem claim_C1_witness :
    findSession fullEnrolledState 1 = some ⟨1, "A #1", 1, 30, 1, false⟩ ∧
    (1 : Nat) ≤ current_participants fullEnrolledState 1 ∧
    enroll fullEnrolledState 3 1 = .error .sessionFull ∧
    step fullEnrolledState (.enroll 3 1) = fullEnrolledState :=
  ⟨rfl, by decide,
   ((claim_C1_enroll_respects_capacity fullEnrolledState 3 1
      ⟨1, "A #1", 1, 30, 1, false⟩ rfl).1 (by decide)).1,
   ((claim_C1_enroll_respects_capacity fullEnrolledState 3 1
      ⟨1, "A #1", 1, 30, 1, false⟩ rfl).1 (by decide)).2⟩

/-- C2 counterexample: an enroll attempt by an already-enrolled user does not
always fail with the already-enrolled error — when the session is also at
capacity, the serializer's capacity check fires first and the user gets the
session-full error instead. -/
theorem claim_C2_counterexample :
    enrollmentExists fullEnrolledState 2 1 = true ∧
    check_user_subscription fullEnrolledState 2 = true ∧
    enroll fullEnrolledState 2 1 = .error .sessionFull ∧
    enroll fullEnrolledState 2 1 ≠ .error .alreadyEnrolled := by decide

/-- C2 (amended): every operation preserves at-most-one-Enrollment per
(user, session); and an enroll attempt by an already-enrolled user with an
active subscription against a session below capacity fails with the
translated already-enrolled error (never a raw storage error), leaving the
store unchanged.  When the session is instead at capacity, the attempt fails
with the session-full error first. -/
theorem claim_C2_unique_enrollment (st : AppState) (uid sid : Nat)
    (s : MeditationSession) (hs : findSession st sid = some s) :
    (∀ (st₀ : AppState) (op : Op), enrollmentsUnique st₀ →
      enrollmentsUnique (step st₀ op)) ∧
    (enrollmentExists st uid sid = true →
      (current_participants st sid < s.maxParticipants →
        check_user_subscription st uid = true →
        enroll st uid sid = .error .alreadyEnrolled ∧
          step st (.enroll uid sid) = st) ∧
      (s.maxParticipants ≤ current_participants st sid →
        enroll st uid sid = .error .sessionFull ∧
          step st (.enroll uid sid) = st)) := by
  refine ⟨step_preserves_enrollmentsUnique, fun hdup => ⟨?_, ?_⟩⟩
  · intro hcap hsub
    have he := enroll_already st uid sid s hs hcap hsub hdup
    exact ⟨he, by simp [step, he]⟩
  · intro hfull
    have he := enroll_full st uid sid s hs hfull
    exact ⟨he, by simp [step, he]⟩

/-- C2 witness: on a store with a free seat, an already-enrolled subscribed
member re-enrolling receives the already-enrolled error and the store is
unchanged. -/
theorem claim_C2_witness :
    enrollmentExists completedState 2 1 = true ∧
    enroll completedState 2 1 = .error .alreadyEnrolled ∧
    step completedState (.enroll 2 1) = completedState :=
  ⟨by decide,
   (((claim_C2_unique_enrollment completedState 2 1 ⟨1, "A #1", 1, 30, 20, true⟩
      rfl).2 (by decide)).1 (by decide) (by decide)).1,
   (((claim_C2_unique_enrollment completedState 2 1 ⟨1, "A #1", 1, 30, 20, true⟩
      rfl).2 (by decide)).1 (by decide) (by decide)).2⟩

/-- C3 counterexample: the four preconditions are not checked in the claimed
order.  A user with no subscription enrolling in a full session receives the
session-full error, whereas the claimed order (subscription before capacity)
demands the subscription-required error. -/
theorem claim_C3_counterexample :
    (findSession fullNoSubState 1).isSome = true ∧
    check_user_subscription fullNoSubState 3 = false ∧
    enroll fullNoSubState 3 1 = .error .sessionFull ∧
    enroll fullNoSubState 3 1 ≠ .error .subscriptionRequired := by decide

/-- C3 (amended): the enroll checks run in the order session-exists,
capacity, subscription, uniqueness — capacity is validated by the serializer
before `perform_create` runs the subscription and duplicate checks — each
yielding its distinct failure, and only when all four pass is exactly one
Enrollment row created. -/
theorem claim_C3_check_order (st : AppState) (uid sid : Nat) :
    (findSession st sid = none →
      enroll st uid sid = .error .sessionDoesNotExist) ∧
    (∀ s, findSession st sid = some s →
      s.maxParticipants ≤ current_participants st sid →
      enroll st uid sid = .error .sessionFull) ∧
    (∀ s, findSession st sid = some s →
      current_participants st sid < s.maxParticipants →
      check_user_subscription st uid = false →
      enroll st uid sid = .error .subscriptionRequired) ∧
    (∀ s, findSession st sid = some s →
      current_participants st sid < s.maxParticipants →
      check_user_subscription st uid = true →
      enrollmentExists st uid sid = true →
      enroll st uid sid = .error .alreadyEnrolled) ∧
    (∀ s, findSession st sid = some s →
      current_participants st sid < s.maxParticipants →
      check_user_subscription st uid = true →
      enrollmentExists st uid sid = false →
      enroll st uid sid =
        .ok { st with enrollments := st.enrollments ++ [⟨uid, sid⟩] }) :=
  ⟨enroll_session_missing st uid sid,
   fun s hs hfull => enroll_full st uid sid s hs hfull,
   fun s hs hcap hsub => enroll_no_subscription st uid sid s hs hcap hsub,
   fun s hs hcap hsub hdup => enroll_already st uid sid s hs hcap hsub hdup,
   fun s hs hcap hsub hdup => enroll_success st uid sid s hs hcap hsub hdup⟩

/-- C3 witness: enrolling against a store with no sessions fails with the
session-lookup error, and a subscribed member with a free seat succeeds with
exactly one appended row. -/
theorem claim_C3_witness :
    findSession demoInit 1 = none ∧
    enroll demoInit 2 1 = .error .sessionDoesNotExist ∧
    enroll completedState 3 1 ≠
      .ok { completedState with
              enrollments := completedState.enrollments ++ [⟨3, 1⟩] } :=
  ⟨rfl, (claim_C3_check_order demoInit 2 1).1 rfl, by
    have := (claim_C3_check_order completedState 3 1).2.2.1
      ⟨1, "A #1", 1, 30, 20, true⟩ rfl (by decide) (by decide)
    simp [this]⟩

/-- C4: when the user's balance is strictly below the configured cost, the
purchase fails with the insufficient-funds error before any mutation: the
balance is untouched and no Subscription row is created or modified.  In
particular this holds for balance 100.00 against cost 120.00. -/
theorem claim_C4_insufficient_funds (st : AppState) (uid : Nat)
    (cost now : Int) (h : user_balance st uid < cost) :
    subscription_perform_create st uid cost now = .error .insufficientFunds ∧
    step st (.purchase uid cost now) = st := by
  constructor
  · simp [subscription_perform_create, h]
  · simp [step, subscription_perform_create, h]

/-- C4 witness: the spec's scenario — balance 100.00, cost 120.00 — fails
with insufficient funds and leaves the store (balance and subscription rows)
unchanged. -/
theorem claim_C4_witness :
    user_balance poorUserState 2 < 12000 ∧
    subscription_perform_create poorUserState 2 12000 0 =
      .error .insufficientFunds ∧
    step poorUserState (.purchase 2 12000 0) = poorUserState :=
  ⟨by decide,
   (claim_C4_insufficient_funds poorUserState 2 12000 0 (by decide)).1,
   (claim_C4_insufficient_funds poorUserState 2 12000 0 (by decide)).2⟩

/-- C5: with sufficient balance the purchase succeeds and debits exactly the
cost; if the user has a currently active subscription its `end_date` is
extended by 30 days with no row added or removed (the user's row count is
unchanged), otherwise exactly one new Subscription row is appended with
`end_date = now + 30` and `is_active = true`. -/
theorem claim_C5_purchase_or_renew (st : AppState) (uid : Nat)
    (cost now : Int) (u : UserRec)
    (hu : st.users.find? (fun x => x.id == uid) = some u)
    (hb : cost ≤ u.cashBalance) :
    ∃ st', subscription_perform_create st uid cost now = .ok st' ∧
      user_balance st' uid = u.cashBalance - cost ∧
      ((∃ sub, get_active_subscription st uid = some sub ∧
          st'.subscriptions.length = st.subscriptions.length ∧
          st'.subscriptions.countP (fun t => t.user == uid) =
            st.subscriptions.countP (fun t => t.user == uid) ∧
          { sub with endDate := sub.endDate + 30 } ∈ st'.subscriptions) ∨
        (get_active_subscription st uid = none ∧
          st'.subscriptions = st.subscriptions ++
            [⟨next_subscription_id st, uid, now + 30, true, cost⟩])) := by
  have hbal : user_balance st uid = u.cashBalance := by simp [user_balance, hu]
  have hnot : ¬user_balance st uid < cost := by
    rw [hbal]; exact Int.not_lt.mpr hb
  cases hact : get_active_subscription st uid with
  | some sub =>
    refine ⟨_, purchase_renews st uid cost now sub hnot hact, ?_, ?_⟩
    · exact user_balance_deduct st uid cost u hu
    · refine Or.inl ⟨sub, rfl, ?_, ?_, ?_⟩
      · simp
      · exact countP_user_update st.subscriptions uid sub.id
      · have hmem : sub ∈ st.subscriptions := List.mem_of_find?_eq_some hact
        exact List.mem_map.mpr ⟨sub, hmem, by simp⟩
  | none =>
    refine ⟨_, purchase_creates st uid cost now hnot hact, ?_, Or.inr ⟨rfl, rfl⟩⟩
    exact user_balance_deduct st uid cost u hu

/-- C5 witness: member 2 (balance 200.00) renews the active subscription
ending on day 100: the purchase succeeds, the balance drops by the cost, no
row is created and the row now ends on day 130. -/
theorem claim_C5_witness :
    completedState.users.find? (fun x => x.id == 2) = some ⟨2, false, 20000⟩ ∧
    (12050 : Int) ≤ 20000 ∧
    (∃ st', subscription_perform_create completedState 2 12050 0 = .ok st' ∧
      user_balance st' 2 = 20000 - 12050 ∧
      ((∃ sub, get_active_subscription completedState 2 = some sub ∧
          st'.subscriptions.length = completedState.subscriptions.length ∧
          st'.subscriptions.countP (fun t => t.user == 2) =
            completedState.subscriptions.countP (fun t => t.user == 2) ∧
          { sub with endDate := sub.endDate + 30 } ∈ st'.subscriptions) ∨
        (get_active_subscription completedState 2 = none ∧
          st'.subscriptions = completedState.subscriptions ++
            [⟨next_subscription_id completedState, 2, 0 + 30, true, 12050⟩]))) :=
  ⟨rfl, by decide,
   claim_C5_purchase_or_renew completedState 2 12050 0 ⟨2, false, 20000⟩ rfl
     (by decide)⟩

/-- C6: the sweep deactivates exactly the active subscriptions whose
`end_date` is strictly in the past, leaves every other row unchanged, and is
idempotent both on the subscriptions table and on the whole store. -/
theorem claim_C6_sweep_exact_idempotent (now : Int)
    (subs : List Subscription) :
    check_expired_subscriptions now (check_expired_subscriptions now subs) =
      check_expired_subscriptions now subs ∧
    (∀ st : AppState,
      sweep_expired (sweep_expired st now) now = sweep_expired st now) ∧
    (check_expired_subscriptions now subs).length = subs.length ∧
    (∀ (i : Nat) (s : Subscription), subs[i]? = some s →
      ((s.endDate < now ∧ s.isActive = true) →
        (check_expired_subscriptions now subs)[i]? =
          some { s with isActive := false }) ∧
      (¬(s.endDate < now ∧ s.isActive = true) →
        (check_expired_subscriptions now subs)[i]? = some s)) := by
  have hidem : ∀ l : List Subscription,
      check_expired_subscriptions now (check_expired_subscriptions now l) =
        check_expired_subscriptions now l := by
    intro l
    unfold check_expired_subscriptions
    rw [List.map_map]
    apply List.map_congr_left
    intro s _
    by_cases h : expiredActive now s = true
    · have h2 : expiredActive now { s with isActive := false } = false := by
        simp [expiredActive]
      simp [Function.comp, h, h2]
    · simp [Function.comp, h]
  refine ⟨hidem subs, ?_, by simp [check_expired_subscriptions], ?_⟩
  · intro st
    unfold sweep_expired
    simp [hidem]
  · intro i s hi
    constructor
    · intro hc
      have hfa : expiredActive now s = true := by
        simp [expiredActive, hc.1, hc.2]
      simp [check_expired_subscriptions, hi, hfa]
    · intro hc
      have hfa : expiredActive now s = false := by
        cases hA : s.isActive with
        | false => simp [expiredActive, hA]
        | true =>
          have hlt : ¬s.endDate < now := fun hl => hc ⟨hl, hA⟩
          simp [expiredActive, hA, hlt]
      simp [check_expired_subscriptions, hi, hfa]

/-- C6 witness: a subscription expired 5 days before `now = 0` and still
active is flipped inactive with every other field kept. -/
theorem claim_C6_witness :
    ([⟨1, 2, -5, true, 12050⟩] : List Subscription)[0]? =
      some ⟨1, 2, -5, true, 12050⟩ ∧
    ((-5 : Int) < 0 ∧ (true : Bool) = true) ∧
    (check_expired_subscriptions 0 [⟨1, 2, -5, true, 12050⟩])[0]? =
      some ⟨1, 2, -5, false, 12050⟩ :=
  ⟨rfl, ⟨by decide, rfl⟩,
   ((claim_C6_sweep_exact_idempotent 0 [⟨1, 2, -5, true, 12050⟩]).2.2.2 0
      ⟨1, 2, -5, true, 12050⟩ rfl).1 ⟨by decide, rfl⟩⟩

/-- C7: a Rating row is created if and only if the user is enrolled, has no
prior rating for the session, is not its instructor, the session is
completed and the score lies in [1, 5]; each single violated gate yields its
distinct error, and any error leaves the store unchanged — in particular an
instructor rating their own completed session is rejected. -/
theorem claim_C7_rating_gate (st : AppState) (uid sid : Nat) (score : Int)
    (c : String) (s : MeditationSession) (hs : findSession st sid = some s) :
    (rate_session st uid sid score c =
        .ok { st with ratings := st.ratings ++ [⟨uid, sid, score, c⟩] } ↔
      (enrollmentExists st uid sid = true ∧ ratingExists st uid sid = false ∧
        s.instructor ≠ uid ∧ s.isCompleted = true ∧ 1 ≤ score ∧ score ≤ 5)) ∧
    ((score < 1 ∨ 5 < score) →
      rate_session st uid sid score c = .error .invalidScore) ∧
    (1 ≤ score → score ≤ 5 → enrollmentExists st uid sid = false →
      rate_session st uid sid score c = .error .notEnrolled) ∧
    (1 ≤ score → score ≤ 5 → enrollmentExists st uid sid = true →
      ratingExists st uid sid = true →
      rate_session st uid sid score c = .error .duplicateRating) ∧
    (1 ≤ score → score ≤ 5 → enrollmentExists st uid sid = true →
      ratingExists st uid sid = false → s.instructor = uid →
      rate_session st uid sid score c = .error .selfRatingForbidden) ∧
    (1 ≤ score → score ≤ 5 → enrollmentExists st uid sid = true →
      ratingExists st uid sid = false → s.instructor ≠ uid →
      s.isCompleted = false →
      rate_session st uid sid score c = .error .sessionNotCompleted) ∧
    (∀ e, rate_session st uid sid score c = .error e →
      step st (.rateSession uid sid score c) = st) := by
  refine ⟨⟨?_, ?_⟩, rate_invalid_score st uid sid score c,
    fun h1 h5 henr => rate_not_enrolled st uid sid score c s hs h1 h5 henr,
    fun h1 h5 henr hdup => rate_duplicate st uid sid score c s hs h1 h5 henr hdup,
    fun h1 h5 henr hdup hown =>
      rate_self_forbidden st uid sid score c s hs h1 h5 henr hdup hown,
    fun h1 h5 henr hdup hown hcmp =>
      rate_not_completed st uid sid score c s hs h1 h5 henr hdup hown hcmp,
    fun e he => by simp [step, he]⟩
  · intro hok
    obtain ⟨s₀, hf₀, h1, h5, henr, hdup, hown, hcmp, _⟩ := rate_ok_inv hok
    have hss : s₀ = s := Option.some.inj (hf₀.symm.trans hs)
    subst hss
    exact ⟨henr, hdup, hown, hcmp, h1, h5⟩
  · rintro ⟨henr, hdup, hown, hcmp, h1, h5⟩
    exact rate_success st uid sid score c s hs h1 h5 henr hdup hown hcmp

/-- C7 witness: the spec's scenario — instructor 1, enrolled in their own
completed session, submits score 5 and is rejected with the self-rating
error, leaving the store unchanged. -/
theorem claim_C7_witness :
    enrollmentExists completedState 1 1 = true ∧
    rate_session completedState 1 1 5 "" = .error .selfRatingForbidden ∧
    step completedState (.rateSession 1 1 5 "") = completedState :=
  ⟨by decide,
   (claim_C7_rating_gate completedState 1 1 5 "" ⟨1, "A #1", 1, 30, 20, true⟩
      rfl).2.2.2.2.1 (by decide) (by decide) (by decide) (by decide) rfl,
   (claim_C7_rating_gate completedState 1 1 5 "" ⟨1, "A #1", 1, 30, 20, true⟩
      rfl).2.2.2.2.2.2 .selfRatingForbidden
     ((claim_C7_rating_gate completedState 1 1 5 ""
        ⟨1, "A #1", 1, 30, 20, true⟩ rfl).2.2.2.2.1 (by decide) (by decide)
        (by decide) (by decide) rfl)⟩

/-- C8 counterexample: the conjunction claimed invariant is not preserved by
enrollment deletion.  Reachable from the demo store: member 2 enrolls, the
session is completed, member 2 rates it and then deletes the enrollment —
the Rating row survives with no matching Enrollment row. -/
theorem claim_C8_counterexample :
    ∃ st : AppState, Reachable demoInit st ∧
      ratingExists st 2 1 = true ∧ enrollmentExists st 2 1 = false ∧
      ratingsSupported st = false :=
  ⟨execOps demoInit orphanRatingTrace, ⟨orphanRatingTrace, rfl⟩, by decide,
   by decide, by decide⟩

/-- C8 (amended): every operation preserves at-most-one-Rating per
(user, session), and a Rating is only ever created while a matching
Enrollment exists and the session is completed; the enrollment-existence
conjunct however is not an invariant, since deleting the enrollment leaves
the rating behind. -/
theorem claim_C8_rating_invariants :
    (∀ (st : AppState) (op : Op), ratingsUnique st →
      ratingsUnique (step st op)) ∧
    (∀ (st : AppState) (uid sid : Nat) (score : Int) (c : String)
      (st' : AppState), rate_session st uid sid score c = .ok st' →
      enrollmentExists st uid sid = true ∧
      ∃ s, findSession st sid = some s ∧ s.isCompleted = true) :=
  ⟨step_preserves_ratingsUnique,
   fun st uid sid score c st' h => by
    obtain ⟨s, hf, _, _, henr, _, _, hcmp, _⟩ := rate_ok_inv h
    exact ⟨henr, s, hf, hcmp⟩⟩

/-- C8 witness: member 2's successful rating of the completed session was
admitted only because the enrollment existed and the session was completed. -/
theorem claim_C8_witness :
    rate_session completedState 2 1 4 "calm" =
      .ok { completedState with
              ratings := completedState.ratings ++ [⟨2, 1, 4, "calm"⟩] } ∧
    enrollmentExists completedState 2 1 = true ∧
    (∃ s, findSession completedState 1 = some s ∧ s.isCompleted = true) :=
  ⟨by decide,
   (claim_C8_rating_invariants.2 completedState 2 1 4 "calm"
      { completedState with
          ratings := completedState.ratings ++ [⟨2, 1, 4, "calm"⟩] }
      (by decide)).1,
   (claim_C8_rating_invariants.2 completedState 2 1 4 "calm"
      { completedState with
          ratings := completedState.ratings ++ [⟨2, 1, 4, "calm"⟩] }
      (by decide)).2⟩

/-- C9 counterexample: `MeditationSession.create` does not always store the
synthesized name — reachable from the demo store (create "C x", create "C",
delete "C x #1"), only "C #2" remains, and a further creation with base "C"
synthesizes the taken name "C #2": `save()` raises the uniqueness
`IntegrityError` and stores nothing instead of storing `"{base} #{count+1}"`. -/
theorem claim_C9_counterexample :
    ∃ st : AppState, Reachable demoInit st ∧
      st.sessions.map (fun s => s.name) = ["C #2"] ∧
      meditation_session_create st "C" 1 30 20 = .error .duplicateName ∧
      step st (.createSession "C" 1 30 20) = st :=
  ⟨execOps demoInit nameCollisionTrace, ⟨nameCollisionTrace, rfl⟩, by decide,
   by decide, by decide⟩

/-- C9 (amended): whenever creation succeeds it appends exactly one session
whose stored name is `"{base} #{count+1}"`, where `count` is the number of
existing sessions whose stored name starts with the requested base; when the
synthesized name collides with an existing one, the `unique=True` constraint
raises and nothing is stored.  Three sequential creations with base
"Morning", from a store with no "Morning"-prefixed session, store
"Morning #1", "Morning #2", "Morning #3". -/
theorem claim_C9_generated_names :
    (∀ (st : AppState) (base : String) (i d m : Nat) (st' : AppState),
      meditation_session_create st base i d m = .ok st' →
      st'.sessions =
        st.sessions ++
          [⟨next_session_id st,
            base ++ " #" ++
              Nat.repr
                ((st.sessions.filter
                    (fun s => strStartsWith s.name base)).length + 1),
            i, d, m, false⟩]) ∧
    (∀ (st : AppState) (base : String) (i d m : Nat),
      meditation_session_create st base i d m = .error .duplicateName →
      st.sessions.any (fun s =>
        s.name == base ++ " #" ++
          Nat.repr
            ((st.sessions.filter
                (fun s => strStartsWith s.name base)).length + 1)) = true) ∧
    ((execOps morningInit
        [.createSession "Morning" 1 30 20, .createSession "Morning" 1 30 20,
         .createSession "Morning" 1 30 20]).sessions.map (fun s => s.name) =
      ["Zen #1", "Morning #1", "Morning #2", "Morning #3"]) := by
  refine ⟨?_, ?_, by decide⟩
  · intro st base i d m st' h
    rw [meditation_session_create_ok_eq h]
  · intro st base i d m h
    exact (meditation_session_create_error_iff st base i d m).mp h

/-- C9 witness: on the store holding only "Zen #1", a creation with base
"Morning" succeeds and appends exactly the session named by the formula
(count 0, so "Morning #1"). -/
theorem claim_C9_witness :
    meditation_session_create morningInit "Morning" 1 30 20 = .ok c9OkState ∧
    c9OkState.sessions =
      morningInit.sessions ++
        [⟨next_session_id morningInit,
          "Morning" ++ " #" ++
            Nat.repr
              ((morningInit.sessions.filter
                  (fun s => strStartsWith s.name "Morning")).length + 1),
          1, 30, 20, false⟩] :=
  ⟨by decide,
   claim_C9_generated_names.1 morningInit "Morning" 1 30 20 c9OkState
     (by decide)⟩

/-- C10: because the suffix counter counts every session whose name starts
with the base string, a store holding only "Morning Star #1" makes a
creation with base "Morning" succeed and store the name "Morning #2",
although no session named "Morning #1" exists before or after. -/
theorem claim_C10_prefix_interference :
    morningStarState.sessions.map (fun s => s.name) = ["Morning Star #1"] ∧
    (morningStarState.sessions.filter
        (fun s => s.name == "Morning #1")).length = 0 ∧
    meditation_session_create morningStarState "Morning" 1 30 20 =
      .ok c10State ∧
    c10State.sessions.map (fun s => s.name) =
      ["Morning Star #1", "Morning #2"] ∧
    (c10State.sessions.filter
        (fun s => s.name == "Morning #1")).length = 0 := by decide

end ZenithFlow
